import Mathlib

/-!
Verification of the Blogicum blog application's core logic
(`blog/views.py`, `blog/forms.py`) against its design specification.

The request handlers are shallowly embedded: the ORM's query sets become
Lean lists, the database becomes an explicit record of lists, wall-clock
time (`timezone.now()`) becomes an integer parameter `now`, users are
identified by their numeric id, and each handler becomes a pure function
from its inputs (and the database) to the new database and an HTTP
response.  `get_object_or_404` becomes a `find?` whose `none` outcome is
the NotFound / 404 page.
-/

namespace Blogicum

/-- Modelled from the spec: the repository's `blog/models.py` is not under
`src/`.  Per the spec's data model, a Category has a name, a slug and an
`is_published` flag; only the fields the handlers read are kept here. -/
structure Category where
  id : Nat
  is_published : Bool
deriving DecidableEq, Repr

/-- Modelled from the spec: the repository's `blog/models.py` is not under
`src/`.  Per the spec's data model, a Post has a title, a body, a
publication timestamp `pub_date`, an `is_published` flag, exactly one
author, and is optionally linked to one Category and one Location. -/
structure Post where
  id : Nat
  author : Nat
  title : String
  text : String
  pub_date : Int
  is_published : Bool
  category : Option Category
  location : Option Nat
deriving DecidableEq, Repr

/-- Modelled from the spec: the repository's `blog/models.py` is not under
`src/`.  Per the spec's data model, a Comment has a text, exactly one
author and is attached to exactly one Post. -/
structure Comment where
  id : Nat
  author : Nat
  post : Nat
  text : String
deriving DecidableEq, Repr

/-- The database visible to the handlers: the Post and Comment tables. -/
structure Db where
  posts : List Post
  comments : List Comment
deriving DecidableEq, Repr

/-- The truth value of the ORM lookup `category__is_published=True` on a
single post: the condition traverses the foreign key, so a post whose
category is NULL never satisfies it. -/
def categoryIsPublished (p : Post) : Bool :=
  match p.category with
  | some c => c.is_published
  | none => false

/-- The conjunction of the three keyword filters in
`filter_published_posts` (`blog/views.py`, lines 31-37):
`is_published=True`, `category__is_published=True`, `pub_date__lte=now`. -/
def postVisible (now : Int) (p : Post) : Bool :=
  p.is_published && categoryIsPublished p && decide (p.pub_date ≤ now)

/-- `filter_published_posts` (`blog/views.py`, lines 31-37): keeps the
posts of the query set satisfying the three published-visibility filters. -/
def filter_published_posts (now : Int) (qs : List Post) : List Post :=
  qs.filter (postVisible now)

/-- `POSTS_PER_PAGE` (`blog/views.py`, line 16). -/
def POSTS_PER_PAGE : Nat := 10

/-- The number of comments whose `post` foreign key is the given post:
the value of the `Count ("comments")` annotation for that post. -/
def comment_count (comments : List Comment) (p : Post) : Nat :=
  (comments.filter (fun c => c.post == p.id)).length

/-- `annotate_posts_with_comment_count` (`blog/views.py`, lines 19-21):
pairs every post of the query set with its comment count. -/
def annotate_posts_with_comment_count (comments : List Comment)
    (qs : List Post) : List (Post × Nat) :=
  qs.map (fun p => (p, comment_count comments p))

/-- The ORM's `order_by ("-pub_date")`: a stable sort putting larger
publication timestamps first. -/
def order_by_pub_date_desc (qs : List Post) : List Post :=
  qs.mergeSort (fun a b => decide (b.pub_date ≤ a.pub_date))

/-- The post list built by `index` (`blog/views.py`, lines 40-52) before
pagination: visibility filter, then descending `pub_date` order, then the
comment-count annotation (`select_related` only prefetches and does not
change the rows). -/
def index_post_list (now : Int) (posts : List Post)
    (comments : List Comment) : List (Post × Nat) :=
  annotate_posts_with_comment_count comments
    (order_by_pub_date_desc (filter_published_posts now posts))

/-- The post list built by `profile` (`blog/views.py`, lines 99-122) before
pagination.  The base collection is the target user's posts; the profile
owner sees it whole, every other requester sees it through
`filter_published_posts`; the result is ordered by `pub_date` descending
and annotated with each post's comment count. -/
def profile_post_list (now : Int) (requester profile_user : Nat)
    (db : Db) : List (Post × Nat) :=
  let base := db.posts.filter (fun p => p.author == profile_user)
  let post_list :=
    if requester = profile_user then base
    else filter_published_posts now base
  annotate_posts_with_comment_count db.comments
    (order_by_pub_date_desc post_list)

/-- `post_detail` (`blog/views.py`, lines 55-74), restricted to the lookup
that decides between the detail page and the 404 page: fetch the post by
primary key (404 when absent); when the requester is not its author,
re-fetch it from the visibility-filtered set (404 when it is filtered
out).  `none` is the NotFound outcome of `get_object_or_404`. -/
def post_detail (now : Int) (user post_id : Nat)
    (posts : List Post) : Option Post :=
  match posts.find? (fun p => p.id == post_id) with
  | none => none
  | some p =>
    if user ≠ p.author then
      (filter_published_posts now posts).find? (fun q => q.id == post_id)
    else some p

/-- Number of pages of Django's `Paginator`.  Modelled from the framework
(`django.core.paginator.Paginator.num_pages`, an external collaborator):
with the default `allow_empty_first_page` and zero orphans this is
`ceil (max 1 count / per_page)`. -/
def num_pages (count per_page : Nat) : Nat :=
  (max 1 count + per_page - 1) / per_page

/-- Value of a run of decimal digits, `none` at the first non-digit. -/
def parseDigitsAux : List Char → Nat → Option Nat
  | [], acc => some acc
  | c :: cs, acc =>
    if c.isDigit then parseDigitsAux cs (acc * 10 + (c.toNat - 48)) else none

/-- Python's `int (str)`: an optional sign followed by at least one
decimal digit; anything else raises `ValueError`, modelled as `none`. -/
def parseIntChars : List Char → Option Int
  | [] => none
  | '-' :: cs =>
    match cs with
    | [] => none
    | _ => (parseDigitsAux cs 0).map (fun n => -(n : Int))
  | '+' :: cs =>
    match cs with
    | [] => none
    | _ => (parseDigitsAux cs 0).map (fun n => (n : Int))
  | cs => (parseDigitsAux cs 0).map (fun n => (n : Int))

/-- Python's `int (str)` applied to the raw `page` query parameter: `none`
when the parameter is absent or not an integer literal. -/
def parsePage (param : Option String) : Option Int :=
  match param with
  | none => none
  | some s => parseIntChars s.data

/-- The page number chosen by Django's `Paginator.get_page`.  Modelled from
the framework (an external collaborator): a missing or non-numeric
parameter raises `PageNotAnInteger`, caught as page 1; a number below 1 or
above `num_pages` raises `EmptyPage`, caught as the LAST page
(`num_pages`); an in-range number is used as is. -/
def get_page (count per_page : Nat) (param : Option String) : Nat :=
  match parsePage param with
  | none => 1
  | some n =>
    if n < 1 then num_pages count per_page
    else if n > (num_pages count per_page : Int) then num_pages count per_page
    else n.toNat

/-- The slice of an ordered sequence shown on the given 1-based page. -/
def pageSlice {α : Type} (qs : List α) (per_page page : Nat) : List α :=
  (qs.drop ((page - 1) * per_page)).take per_page

/-- `paginate_queryset` (`blog/views.py`, lines 24-28): builds a
`Paginator` over the query set with `POSTS_PER_PAGE` items per page, reads
the raw `page` query parameter and returns the page's contents via
`get_page`. -/
def paginate_queryset {α : Type} (param : Option String) (qs : List α)
    (per_page : Nat) : List α :=
  pageSlice qs per_page (get_page qs.length per_page param)

/-- The valid page nearest to a requested number: below 1 that is page 1,
above `num_pages` it is the last page.  (Stated by the spec's paginator
contract; compare with `get_page`, which sends both out-of-range sides to
the last page.) -/
def nearestValidPage (n : Int) (np : Nat) : Nat :=
  if n < 1 then 1 else if n > (np : Int) then np else n.toNat

/-- The HTTP request methods the comment handlers distinguish. -/
inductive Method
  | get
  | post
deriving DecidableEq, Repr

/-- The responses the embedded handlers produce: a redirect to
`blog:post_detail` of the given post id, a rendered template, or the 404
page raised by `get_object_or_404`. -/
inductive Resp
  | redirect (post_id : Nat)
  | render (template : String)
  | notFound
deriving DecidableEq, Repr

/-- Validity of `CommentForm` (`blog/forms.py`, lines 27-32), a ModelForm
whose only field is the required text field.  The argument is the `text`
value of the bound data, `none` for an unbound form (`request.POST or
None` on a GET, or a POST without the field).  Modelled from the
framework: a required text field rejects an empty value. -/
def commentFormIsValid (data : Option String) : Bool :=
  match data with
  | none => false
  | some t => !(t == "")

/-- The cleaned `text` value of a valid `CommentForm`: the submitted
value. -/
def cleanText (data : Option String) : String :=
  match data with
  | none => ""
  | some t => t

/-- The comment persisted by `add_comment` (`blog/views.py`, lines
199-203): `form.save (commit=False)` builds it from the form's only field,
then the handler sets `comment.author = request.user` and `comment.post =
post` before saving.  `fresh_id` is the primary key the store assigns. -/
def mkComment (fresh_id user post_id : Nat) (text : String) : Comment :=
  { id := fresh_id, author := user, post := post_id, text := text }

/-- `add_comment` (`blog/views.py`, lines 193-205): fetch the post by
primary key (404 when absent); when the bound form is valid, persist a new
comment bound to that post and the requesting user; in both cases redirect
to the post's detail page. -/
def add_comment (user : Nat) (formText : Option String)
    (fresh_id post_id : Nat) (db : Db) : Db × Resp :=
  match db.posts.find? (fun p => p.id == post_id) with
  | none => (db, Resp.notFound)
  | some _ =>
    if commentFormIsValid formText then
      ({ db with comments :=
          db.comments ++ [mkComment fresh_id user post_id (cleanText formText)] },
       Resp.redirect post_id)
    else (db, Resp.redirect post_id)

/-- `edit_comment` (`blog/views.py`, lines 208-226): fetch the comment by
`comment_id` (404 when absent); a requester other than its author is
redirected to `post_detail` of the URL's `post_id`; a POST with a valid
form saves the cleaned text into the comment and redirects there too;
otherwise the comment form page is rendered. -/
def edit_comment (user : Nat) (method : Method) (formText : Option String)
    (post_id comment_id : Nat) (db : Db) : Db × Resp :=
  match db.comments.find? (fun c => c.id == comment_id) with
  | none => (db, Resp.notFound)
  | some c =>
    if c.author ≠ user then (db, Resp.redirect post_id)
    else if method = Method.post ∧ commentFormIsValid formText then
      ({ db with comments := db.comments.map (fun x =>
          if x.id == comment_id then { x with text := cleanText formText } else x) },
       Resp.redirect post_id)
    else (db, Resp.render "blog/comment.html")

/-- `delete_comment` (`blog/views.py`, lines 229-242): fetch the comment
by `comment_id` (404 when absent); a requester other than its author is
redirected to `post_detail` of the URL's `post_id`; a POST deletes the row
and redirects there too; a GET renders the confirmation page. -/
def delete_comment (user : Nat) (method : Method)
    (post_id comment_id : Nat) (db : Db) : Db × Resp :=
  match db.comments.find? (fun c => c.id == comment_id) with
  | none => (db, Resp.notFound)
  | some c =>
    if c.author ≠ user then (db, Resp.redirect post_id)
    else if method = Method.post then
      ({ db with comments := db.comments.filter (fun x => !(x.id == comment_id)) },
       Resp.redirect post_id)
    else (db, Resp.render "blog/comment.html")

/-- The data a submitted `PostForm` can carry (`blog/forms.py`, lines
10-24): every Post model field except the excluded `author` — the form
offers no way to supply one.  Field list modelled from the spec's Post
data model. -/
structure PostFormData where
  title : String
  text : String
  pub_date : Int
  is_published : Bool
  category : Option Category
  location : Option Nat
deriving DecidableEq, Repr

/-- The post persisted by `PostCreateView.form_valid` (`blog/views.py`,
lines 147-149): the form's instance, whose `author` the view sets to
`request.user` before saving.  `fresh_id` is the primary key the store
assigns. -/
def mkPost (user : Nat) (fd : PostFormData) (fresh_id : Nat) : Post :=
  { id := fresh_id, author := user, title := fd.title, text := fd.text,
    pub_date := fd.pub_date, is_published := fd.is_published,
    category := fd.category, location := fd.location }

/-- The persistence effect of `PostCreateView` (`blog/views.py`, lines
140-152) on a valid form: append the new post built from the form data
with the requester as author. -/
def post_create (user : Nat) (fd : PostFormData) (fresh_id : Nat)
    (db : Db) : Db :=
  { db with posts := db.posts ++ [mkPost user fd fresh_id] }

/-! ## Helper lemmas -/

/-- The comment-count annotation decorates the rows without changing them:
projecting the post back out returns the annotated query set. -/
theorem map_fst_annotate (comments : List Comment) (qs : List Post) :
    (annotate_posts_with_comment_count comments qs).map Prod.fst = qs := by
  rw [annotate_posts_with_comment_count, List.map_map]
  exact List.map_id _

/-- Membership in the visibility filter's output unfolded to the three
conditions of `postVisible`. -/
theorem mem_filter_published (now : Int) (qs : List Post) (p : Post) :
    p ∈ filter_published_posts now qs ↔
      p ∈ qs ∧ p.is_published = true ∧ categoryIsPublished p = true ∧
        p.pub_date ≤ now := by
  simp [filter_published_posts, List.mem_filter, postVisible, and_assoc]

/-- In a table whose rows have pairwise distinct ids, the primary-key
lookup of a member row returns that row. -/
theorem find?_id_of_mem (l : List Post) (pid : Nat) (p : Post)
    (hnd : (l.map Post.id).Nodup) (hmem : p ∈ l) (hid : p.id = pid) :
    l.find? (fun x => x.id == pid) = some p := by
  induction l with
  | nil => cases hmem
  | cons a tl ih =>
    rw [List.map_cons, List.nodup_cons] at hnd
    rcases List.mem_cons.1 hmem with h | h
    · subst h
      exact List.find?_cons_of_pos _ (by simpa using hid)
    · have hne : a.id ≠ pid := by
        intro hcontra
        apply hnd.1
        have hmm : p.id ∈ List.map Post.id tl := List.mem_map_of_mem Post.id h
        rwa [hid, ← hcontra] at hmm
      rw [List.find?_cons_of_neg _ (by simpa using hne)]
      exact ih hnd.2 h

/-- The paginator always has at least one page. -/
theorem one_le_num_pages (count : Nat) : 1 ≤ num_pages count 10 := by
  unfold num_pages
  omega

/-! ## C1: home listing shows exactly the visible posts -/

/-- C1: a post appears in the home listing iff it is a stored post whose
`is_published` flag is set, whose category's `is_published` flag is set
and whose `pub_date` is at or before the current time; equivalently, the
visibility filter returns exactly the subset of its input satisfying this
conjunction. -/
theorem home_listing_membership (now : Int) (posts : List Post)
    (comments : List Comment) (p : Post) :
    p ∈ (index_post_list now posts comments).map Prod.fst ↔
      p ∈ posts ∧ p.is_published = true ∧ categoryIsPublished p = true ∧
        p.pub_date ≤ now := by
  rw [index_post_list, map_fst_annotate, order_by_pub_date_desc,
    List.mem_mergeSort]
  exact mem_filter_published now posts p

/-! ## C8: a post with no category is never publicly visible -/

/-- A published post dated in the past whose category is absent. -/
def pNoCat : Post :=
  { id := 1, author := 1, title := "t", text := "b", pub_date := 0,
    is_published := true, category := none, location := none }

/-- C8 counterexample: `pNoCat` is published, has no category, and its
`pub_date` has passed, yet the visibility filter drops it — the claim that
such a post is publicly visible fails on the code, whose
`category__is_published=True` lookup never matches a NULL category. -/
theorem no_category_post_invisible_cex :
    pNoCat.is_published = true ∧ pNoCat.pub_date ≤ 10 ∧
      pNoCat.category = none ∧ filter_published_posts 10 [pNoCat] = [] :=
  ⟨rfl, by decide, rfl, rfl⟩

/-- C8 (amended): a post with no category is never publicly visible — the
filter's category condition is not waived when the category is absent. -/
theorem no_category_never_visible (now : Int) (posts : List Post)
    (p : Post) (hcat : p.category = none) :
    p ∉ filter_published_posts now posts := by
  intro hmem
  have h := (mem_filter_published now posts p).1 hmem
  rw [categoryIsPublished, hcat] at h
  exact absurd h.2.2.1 (by simp)

/-- Witness for `no_category_never_visible` at the concrete post
`pNoCat`. -/
theorem no_category_never_visible_witness :
    pNoCat ∉ filter_published_posts 10 [pNoCat] :=
  no_category_never_visible 10 [pNoCat] pNoCat rfl

/-! ## C2: post-detail lookup succeeds iff requester is the author or the
post is visible -/

/-- C2: over a post table with distinct primary keys, the `post_detail`
lookup succeeds iff a post with the requested id exists and either the
requester is its author or it passes the visibility predicate; in every
other case — the missing-post case included — it yields the NotFound
outcome mapped to the 404 page. -/
theorem post_detail_access (now : Int) (user pid : Nat)
    (posts : List Post) (hnd : (posts.map Post.id).Nodup) :
    (post_detail now user pid posts).isSome = true ↔
      ∃ p, p ∈ posts ∧ p.id = pid ∧
        (user = p.author ∨ postVisible now p = true) := by
  constructor
  · intro h
    rw [post_detail] at h
    cases hf : posts.find? (fun x => x.id == pid) with
    | none => rw [hf] at h; simp at h
    | some p =>
      rw [hf] at h
      dsimp only at h
      by_cases ha : user = p.author
      · exact ⟨p, List.mem_of_find?_eq_some hf,
          by simpa using List.find?_some hf, Or.inl ha⟩
      · rw [if_pos ha] at h
        cases hf2 : (filter_published_posts now posts).find?
            (fun x => x.id == pid) with
        | none => rw [hf2] at h; simp at h
        | some q =>
          have hq := List.mem_of_find?_eq_some hf2
          rw [filter_published_posts, List.mem_filter] at hq
          exact ⟨q, hq.1, by simpa using List.find?_some hf2, Or.inr hq.2⟩
  · rintro ⟨p, hmem, hid, hcase⟩
    have hf := find?_id_of_mem posts pid p hnd hmem hid
    rw [post_detail, hf]
    dsimp only
    by_cases ha : user = p.author
    · simp [ha]
    · rw [if_pos ha]
      rcases hcase with h1 | h2
      · exact absurd h1 ha
      · have hmem2 : p ∈ filter_published_posts now posts := by
          rw [filter_published_posts, List.mem_filter]
          exact ⟨hmem, h2⟩
        have hsub : List.Sublist (filter_published_posts now posts) posts :=
          List.filter_sublist posts
        have hnd2 : ((filter_published_posts now posts).map Post.id).Nodup :=
          (hsub.map Post.id).nodup hnd
        rw [find?_id_of_mem _ pid p hnd2 hmem2 hid]
        rfl

/-- A published category and a visible post of user 1 in it, used as
concrete table rows. -/
def catPub : Category := { id := 4, is_published := true }

/-- A post that passes the visibility predicate at time 10. -/
def pVis : Post :=
  { id := 1, author := 1, title := "t", text := "b", pub_date := 0,
    is_published := true, category := some catPub, location := none }

/-- Witness for `post_detail_access`: over the one-row table holding
`pVis`, the lookup by a stranger (user 2) is ruled by the equivalence. -/
theorem post_detail_access_witness :
    (post_detail 10 2 1 [pVis]).isSome = true ↔
      ∃ p, p ∈ [pVis] ∧ p.id = 1 ∧
        (2 = p.author ∨ postVisible 10 p = true) :=
  post_detail_access 10 2 1 [pVis] (by decide)

/-! ## C3: the composed profile listing -/

/-- C3: the profile listing is, as a multiset, the full author-scoped
collection when the requester is the profile owner and its
visibility-filtered subset otherwise; it is ordered by publication
timestamp descending, and every row is annotated with the count of its
post's comments. -/
theorem profile_listing_composition (now : Int) (u pu : Nat) (db : Db) :
    ((profile_post_list now u pu db).map Prod.fst).Perm
      (if u = pu then db.posts.filter (fun p => p.author == pu)
       else filter_published_posts now
         (db.posts.filter (fun p => p.author == pu))) ∧
    (profile_post_list now u pu db).Pairwise
      (fun a b => b.1.pub_date ≤ a.1.pub_date) ∧
    (profile_post_list now u pu db).all
      (fun pr => pr.2 == comment_count db.comments pr.1) = true := by
  refine ⟨?_, ?_, ?_⟩
  · rw [profile_post_list, map_fst_annotate, order_by_pub_date_desc]
    split
    · exact List.mergeSort_perm _ _
    · exact List.mergeSort_perm _ _
  · rw [profile_post_list, annotate_posts_with_comment_count,
      List.pairwise_map, order_by_pub_date_desc]
    have hs := @List.sorted_mergeSort Post
      (fun a b : Post => decide (b.pub_date ≤ a.pub_date))
      (fun a b c hab hbc => by
        simp only [decide_eq_true_eq] at *
        exact le_trans hbc hab)
      (fun a b => by
        simp only [Bool.or_eq_true, decide_eq_true_eq]
        exact le_total b.pub_date a.pub_date)
      (if u = pu then db.posts.filter (fun p => p.author == pu)
       else filter_published_posts now
         (db.posts.filter (fun p => p.author == pu)))
    exact hs.imp (by intro a b h; simpa using h)
  · rw [profile_post_list, annotate_posts_with_comment_count, List.all_eq_true]
    intro pr hpr
    rcases List.mem_map.1 hpr with ⟨p, _, rfl⟩
    exact beq_self_eq_true _

/-! ## Concrete rows shared by the witnesses -/

/-- A comment of user 1 on post 5. -/
def cmtC : Comment := { id := 1, author := 1, post := 5, text := "old" }

/-- A database holding only the comment `cmtC`. -/
def dbC : Db := { posts := [], comments := [cmtC] }

/-- A database holding only the visible post `pVis`. -/
def dbP : Db := { posts := [pVis], comments := [] }

/-- Concrete submitted `PostForm` data. -/
def fdEx : PostFormData :=
  { title := "t2", text := "b2", pub_date := 3, is_published := true,
    category := some catPub, location := none }

/-! ## C4: a non-author's edit or delete leaves the comment unchanged -/

/-- C4: when the comment fetched by `comment_id` has an author other than
the requester, both `delete_comment` and `edit_comment` leave the database
unchanged — the comment still exists with the same text, author and post —
and answer with a redirect to the post-detail page, for every request
method and form input. -/
theorem nonauthor_comment_mutation_noop (user pid cid : Nat) (m : Method)
    (ft : Option String) (db : Db) (c : Comment)
    (hfind : db.comments.find? (fun x => x.id == cid) = some c)
    (hne : c.author ≠ user) :
    delete_comment user m pid cid db = (db, Resp.redirect pid) ∧
    edit_comment user m ft pid cid db = (db, Resp.redirect pid) := by
  constructor
  · rw [delete_comment, hfind]
    dsimp only
    rw [if_pos hne]
  · rw [edit_comment, hfind]
    dsimp only
    rw [if_pos hne]

/-- Witness for `nonauthor_comment_mutation_noop`: user 2 attempts to
delete and to edit user 1's comment `cmtC`. -/
theorem nonauthor_comment_mutation_noop_witness :
    delete_comment 2 Method.post 5 1 dbC = (dbC, Resp.redirect 5) ∧
    edit_comment 2 Method.post (some "x") 5 1 dbC = (dbC, Resp.redirect 5) :=
  nonauthor_comment_mutation_noop 2 5 1 Method.post (some "x") dbC cmtC
    rfl (by decide)

/-! ## C6: comment creation persists exactly on valid input and always
redirects -/

/-- C6: on an existing post, an authenticated comment submission with a
valid form persists one new comment bound to that post and the requesting
user and redirects to the post detail view; with an invalid form it
persists nothing and still redirects there, surfacing no validation
error. -/
theorem add_comment_behaviour (user pid fresh : Nat) (ft : Option String)
    (db : Db) (p : Post)
    (hfind : db.posts.find? (fun x => x.id == pid) = some p) :
    (commentFormIsValid ft = true →
      add_comment user ft fresh pid db =
        ({ db with comments :=
            db.comments ++ [mkComment fresh user pid (cleanText ft)] },
         Resp.redirect pid)) ∧
    (commentFormIsValid ft = false →
      add_comment user ft fresh pid db = (db, Resp.redirect pid)) := by
  constructor
  · intro hv
    rw [add_comment, hfind]
    dsimp only
    rw [if_pos hv]
  · intro hv
    rw [add_comment, hfind]
    dsimp only
    rw [if_neg (by simp [hv])]

/-- Witness for `add_comment_behaviour`: user 2 submits the text `hi`
under the post `pVis`. -/
theorem add_comment_behaviour_witness :
    add_comment 2 (some "hi") 9 1 dbP =
      ({ dbP with comments := dbP.comments ++ [mkComment 9 2 1 "hi"] },
       Resp.redirect 1) :=
  (add_comment_behaviour 2 1 9 (some "hi") dbP pVis rfl).1 rfl

/-! ## C7: outcomes of the author's own edit and delete -/

/-- C7 counterexample: the author's own GET of the edit route renders the
comment form page — it does not redirect to the post detail view, so the
claim that every method culminates in a redirect fails on the code. -/
theorem author_edit_get_renders_cex :
    edit_comment 1 Method.get none 5 1 dbC =
      (dbC, Resp.render "blog/comment.html") ∧
    Resp.render "blog/comment.html" ≠ Resp.redirect 5 :=
  ⟨rfl, by decide⟩

/-- C7 (amended): for the comment's author, a POST with valid form text
persists it and redirects to the post detail view, and a POST of the
delete route removes the row and redirects there; but a GET of either
route, or an edit POST whose form input is invalid, renders the comment
page instead of redirecting. -/
theorem author_comment_mutation (user pid cid : Nat) (ft : Option String)
    (db : Db) (c : Comment)
    (hfind : db.comments.find? (fun x => x.id == cid) = some c)
    (hauth : c.author = user) :
    (commentFormIsValid ft = true →
      edit_comment user Method.post ft pid cid db =
        ({ db with comments := db.comments.map (fun x =>
            if x.id == cid then { x with text := cleanText ft } else x) },
         Resp.redirect pid)) ∧
    (commentFormIsValid ft = false →
      edit_comment user Method.post ft pid cid db =
        (db, Resp.render "blog/comment.html")) ∧
    edit_comment user Method.get ft pid cid db =
      (db, Resp.render "blog/comment.html") ∧
    delete_comment user Method.post pid cid db =
      ({ db with comments := db.comments.filter (fun x => !(x.id == cid)) },
       Resp.redirect pid) ∧
    delete_comment user Method.get pid cid db =
      (db, Resp.render "blog/comment.html") := by
  have hnau : ¬ (c.author ≠ user) := by simp [hauth]
  refine ⟨?_, ?_, ?_, ?_, ?_⟩
  · intro hv
    rw [edit_comment, hfind]
    dsimp only
    rw [if_neg hnau, if_pos ⟨rfl, hv⟩]
  · intro hv
    rw [edit_comment, hfind]
    dsimp only
    rw [if_neg hnau, if_neg (by simp [hv])]
  · rw [edit_comment, hfind]
    dsimp only
    rw [if_neg hnau, if_neg (by simp)]
  · rw [delete_comment, hfind]
    dsimp only
    rw [if_neg hnau, if_pos rfl]
  · rw [delete_comment, hfind]
    dsimp only
    rw [if_neg hnau, if_neg (by simp)]

/-- Witness for `author_comment_mutation`: user 1 edits their own comment
`cmtC` with the valid text `new`. -/
theorem author_comment_mutation_witness :
    edit_comment 1 Method.post (some "new") 5 1 dbC =
      ({ dbC with comments := dbC.comments.map (fun x =>
          if x.id == 1 then { x with text := cleanText (some "new") } else x) },
       Resp.redirect 5) :=
  (author_comment_mutation 1 5 1 (some "new") dbC cmtC rfl rfl).1 rfl

/-! ## C9: the author of every created post and comment is the requester -/

/-- C9: whatever the submitted form data — `PostForm` carries no author
field and `CommentForm` only the text field — every post row added by the
post-creation view and every comment row added by `add_comment` has the
authenticated requester as its author. -/
theorem created_author_is_requester (user pid fresh : Nat)
    (ft : Option String) (fd : PostFormData) (db : Db) (p : Post)
    (c : Comment)
    (hp : p ∈ (post_create user fd fresh db).posts) (hpn : p ∉ db.posts)
    (hc : c ∈ (add_comment user ft fresh pid db).1.comments)
    (hcn : c ∉ db.comments) :
    p.author = user ∧ c.author = user := by
  constructor
  · rw [post_create] at hp
    dsimp only at hp
    rcases List.mem_append.1 hp with h | h
    · exact absurd h hpn
    · have he := List.mem_singleton.1 h
      subst he
      rfl
  · rw [add_comment] at hc
    cases hf : db.posts.find? (fun x => x.id == pid) with
    | none =>
      rw [hf] at hc
      exact absurd hc hcn
    | some q =>
      rw [hf] at hc
      dsimp only at hc
      by_cases hv : commentFormIsValid ft = true
      · rw [if_pos hv] at hc
        dsimp only at hc
        rcases List.mem_append.1 hc with h | h
        · exact absurd h hcn
        · have he := List.mem_singleton.1 h
          subst he
          rfl
      · rw [if_neg hv] at hc
        exact absurd hc hcn

/-- Witness for `created_author_is_requester`: user 2 creates a post from
`fdEx` and a comment on post 1 in `dbP`. -/
theorem created_author_is_requester_witness :
    (mkPost 2 fdEx 9).author = 2 ∧ (mkComment 9 2 1 "hi").author = 2 :=
  created_author_is_requester 2 1 9 (some "hi") fdEx dbP
    (mkPost 2 fdEx 9) (mkComment 9 2 1 "hi")
    (by decide) (by decide) (by decide) (by decide)

/-! ## C10: comment mutation resolves by comment id alone and redirects to
the URL's post id -/

/-- C10: the comment handlers fetch by `comment_id` only; when the URL's
`post_id` is not the comment's post, the non-author guard and the author's
delete still act on that comment, and every redirect targets the detail
page of the URL's unrelated `post_id`, not the comment's own post. -/
theorem comment_ops_resolve_by_comment_id (user pid cid : Nat) (m : Method)
    (ft : Option String) (db : Db) (c : Comment)
    (hfind : db.comments.find? (fun x => x.id == cid) = some c)
    (hpost : c.post ≠ pid) (hne : c.author ≠ user) :
    delete_comment user m pid cid db = (db, Resp.redirect pid) ∧
    edit_comment user m ft pid cid db = (db, Resp.redirect pid) ∧
    delete_comment c.author Method.post pid cid db =
      ({ db with comments := db.comments.filter (fun x => !(x.id == cid)) },
       Resp.redirect pid) ∧
    Resp.redirect pid ≠ Resp.redirect c.post := by
  refine ⟨?_, ?_, ?_, ?_⟩
  · rw [delete_comment, hfind]
    dsimp only
    rw [if_pos hne]
  · rw [edit_comment, hfind]
    dsimp only
    rw [if_pos hne]
  · rw [delete_comment, hfind]
    dsimp only
    rw [if_neg (by simp), if_pos rfl]
  · intro h
    exact hpost (Resp.redirect.inj h).symm

/-- Witness for `comment_ops_resolve_by_comment_id`: the URL names post 3
while `cmtC` belongs to post 5. -/
theorem comment_ops_resolve_by_comment_id_witness :
    delete_comment 2 Method.post 3 1 dbC = (dbC, Resp.redirect 3) ∧
    edit_comment 2 Method.post (some "x") 3 1 dbC = (dbC, Resp.redirect 3) ∧
    delete_comment cmtC.author Method.post 3 1 dbC =
      ({ dbC with comments := dbC.comments.filter (fun x => !(x.id == 1)) },
       Resp.redirect 3) ∧
    Resp.redirect 3 ≠ Resp.redirect cmtC.post :=
  comment_ops_resolve_by_comment_id 2 3 1 Method.post (some "x") dbC cmtC
    rfl (by decide) (by decide)

/-! ## C5: pagination never errors, but clamps below-range requests to the
last page -/

/-- C5 counterexample: over eleven posts (two pages of ten), the request
`page=0` is answered with the last page's contents, not with those of the
nearest valid page, which is page 1. -/
theorem page_below_one_not_nearest_cex :
    get_page 11 10 (some "0") = 2 ∧
    nearestValidPage 0 (num_pages 11 10) = 1 ∧
    paginate_queryset (some "0") (List.range 11) 10 ≠
      pageSlice (List.range 11) 10 (nearestValidPage 0 (num_pages 11 10)) := by
  refine ⟨by decide, by decide, by decide⟩

/-- C5 (amended): pagination with page size 10 never raises: a missing or
non-numeric page parameter defaults to page 1, the chosen page always lies
between 1 and the number of pages, and every out-of-range number — beyond
the last page or below 1 — returns the last page's contents (for values
below 1 this is the last page, not the nearest valid page). -/
theorem pagination_never_errors (qs : List Post) (param : Option String) :
    (1 ≤ get_page qs.length POSTS_PER_PAGE param ∧
      get_page qs.length POSTS_PER_PAGE param ≤
        num_pages qs.length POSTS_PER_PAGE) ∧
    (param = none → get_page qs.length POSTS_PER_PAGE param = 1) ∧
    (∀ s, param = some s → parseIntChars s.data = none →
      get_page qs.length POSTS_PER_PAGE param = 1) ∧
    (∀ n : Int, parsePage param = some n →
      (num_pages qs.length POSTS_PER_PAGE : Int) < n →
      paginate_queryset param qs POSTS_PER_PAGE =
        pageSlice qs POSTS_PER_PAGE (num_pages qs.length POSTS_PER_PAGE)) ∧
    (∀ n : Int, parsePage param = some n → n < 1 →
      paginate_queryset param qs POSTS_PER_PAGE =
        pageSlice qs POSTS_PER_PAGE (num_pages qs.length POSTS_PER_PAGE)) := by
  simp only [POSTS_PER_PAGE]
  have hnp : 1 ≤ num_pages qs.length 10 := one_le_num_pages qs.length
  refine ⟨?_, ?_, ?_, ?_, ?_⟩
  · rw [get_page]
    cases hp : parsePage param with
    | none => exact ⟨le_refl 1, hnp⟩
    | some n =>
      dsimp only
      split_ifs with h1 h2
      · exact ⟨hnp, le_refl _⟩
      · exact ⟨hnp, le_refl _⟩
      · constructor
        · omega
        · omega
  · intro h
    subst h
    rfl
  · intro s hs hnone
    subst hs
    rw [get_page, show parsePage (some s) = none from hnone]
  · intro n hn hgt
    have hg : get_page qs.length 10 param = num_pages qs.length 10 := by
      rw [get_page, hn]
      dsimp only
      rw [if_neg (by omega), if_pos hgt]
    rw [paginate_queryset, hg]
  · intro n hn hlt
    have hg : get_page qs.length 10 param = num_pages qs.length 10 := by
      rw [get_page, hn]
      dsimp only
      rw [if_pos hlt]
    rw [paginate_queryset, hg]

/-- Witness for `pagination_never_errors`: requesting page 99 of eleven
posts returns the contents of the last page, page 2. -/
theorem pagination_never_errors_witness :
    paginate_queryset (some "99") (List.replicate 11 pVis) POSTS_PER_PAGE =
      pageSlice (List.replicate 11 pVis) POSTS_PER_PAGE
        (num_pages (List.replicate 11 pVis).length POSTS_PER_PAGE) :=
  (pagination_never_errors (List.replicate 11 pVis) (some "99")).2.2.2.1
    99 (by decide) (by decide)

end Blogicum
